import Mathlib

/-!
Verification of the microscope MCP client core: the server-spec resolver
(parseServerSpec) and the session lifecycle of TestMcpClient (connect,
resource-cache maintenance, tool directory, logging-level control,
handshake introspection, disconnect).  Definitions are a shallow embedding
of the TypeScript source; external SDK calls (transport construction,
handshake, requests) are modelled by an explicit environment recording the
outcome of each call.  JS strings are Lean strings; the JS string
primitives used by the source (split on a single character, lastIndexOf,
slice, startsWith, endsWith) are embedded as executable functions on the
character list of the string.
-/

namespace Microscope

/-- Untyped JSON-like runtime values, used for fields read from untyped
responses (tool input schemas, resource fields, annotations). -/
inductive JsonVal where
  | null
  | bool (b : Bool)
  | num (n : Int)
  | str (s : String)
  | arr (xs : List JsonVal)
  | obj (fields : List (String × JsonVal))
deriving Repr

/-- The two script interpreters recognised by the resolver. -/
inductive Interp where
  | node
  | python
deriving DecidableEq, Repr

/-- Tagged union of resolved server targets, mirroring the TS type
ServerTarget with variants script, npx and http.  The optional npxArgs
field of the npx variant is kept optional as in the source. -/
inductive ServerTarget where
  | script (interpreter : Interp) (path : String) (args : List String)
  | npx (pkg : String) (version : Option String) (bin : Option String)
      (args : List String) (npxArgs : Option (List String))
  | http (url : String) (headers : List (String × String))
deriving DecidableEq, Repr

/-! ### JS string primitives, embedded over character lists -/

/-- JS String.prototype.split with a single-character separator. -/
def charsSplitOn (sep : Char) : List Char → List (List Char)
  | [] => [[]]
  | c :: rest =>
    let r := charsSplitOn sep rest
    if c = sep then [] :: r
    else
      match r with
      | g :: gs => (c :: g) :: gs
      | [] => [[c]]

/-- Split a string on a single-character separator, JS split semantics
(the result is never empty; an empty input yields one empty group). -/
def strSplitOnChar (sep : Char) (s : String) : List String :=
  (charsSplitOn sep s.toList).map String.mk

/-- JS String.prototype.startsWith. -/
def strStartsWith (s p : String) : Bool :=
  List.isPrefixOf p.toList s.toList

/-- JS String.prototype.endsWith. -/
def strEndsWith (s p : String) : Bool :=
  List.isSuffixOf p.toList s.toList

/-- JS String.prototype.slice with only a start index. -/
def strDrop (s : String) (n : Nat) : String :=
  String.mk (s.toList.drop n)

/-- Index of the last occurrence of a character in a list of characters;
none when absent.  Embeds JS String.lastIndexOf (which returns -1 for
absence). -/
def lastIndexOfChar : List Char → Char → Option Nat
  | [], _ => none
  | c :: rest, t =>
    match lastIndexOfChar rest t with
    | some j => some (j + 1)
    | none => if c = t then some 0 else none

/-! ### ServerSpecResolver -/

/-- The package-and-version split of the npx branch of parseServerSpec:
the last occurrence of the at sign separates a version suffix only when
its index is positive and the preceding character is not a slash (so
scoped package names keep their leading scope).  Mirrors the
lastIndexOf/slice block of the source. -/
def splitPkgVersion (pkgAndVer : String) : String × Option String :=
  match lastIndexOfChar pkgAndVer.toList '@' with
  | some atIdx =>
    if 0 < atIdx ∧ pkgAndVer.toList[atIdx - 1]? ≠ some '/' then
      (String.mk (pkgAndVer.toList.take atIdx),
        some (String.mk (pkgAndVer.toList.drop (atIdx + 1))))
    else
      (pkgAndVer, none)
  | none => (pkgAndVer, none)

/-- The fixed allow-list of runner flags recognised in the npx branch. -/
def isNpxFlag (a : String) : Bool :=
  a == "-y" || a == "--yes" || a == "--package" || a == "-p"

/-- The for-loop of the npx branch that pushes each additional argument
either onto npxArgs (known runner flags) or onto serverMCPArgs. -/
def partitionNpxArgs : List String → List String × List String
  | [] => ([], [])
  | a :: rest =>
    let p := partitionNpxArgs rest
    if isNpxFlag a then (a :: p.1, p.2) else (p.1, a :: p.2)

/-- The npx branch of parseServerSpec, applied to the spec with the
leading npx marker already removed. -/
def parseNpx (spec : String) (serverArgs : List String) : ServerTarget :=
  let parts := strSplitOnChar ' ' spec
  let pkgSpec := parts.headD ""
  let additionalArgs := parts.tail
  let p := partitionNpxArgs additionalArgs
  let hashParts := strSplitOnChar '#' pkgSpec
  let pkgAndVer := hashParts.headD ""
  let bin : Option String :=
    match hashParts[1]? with
    | some b => if b = "" then none else some b
    | none => none
  let pv := splitPkgVersion pkgAndVer
  let finalNpxArgs := if p.1.contains "-y" then p.1 else "-y" :: p.1
  ServerTarget.npx pv.1 pv.2 bin (p.2 ++ serverArgs) (some finalNpxArgs)

/-- parseServerSpec: resolves a raw server spec into a ServerTarget, or
fails with the descriptive error of the source. -/
def parseServerSpec (raw : String) (serverArgs : List String) :
    Except String ServerTarget :=
  if strStartsWith raw "http://" || strStartsWith raw "https://" then
    .ok (ServerTarget.http raw [])
  else if strStartsWith raw "npx:" then
    .ok (parseNpx (strDrop raw 4) serverArgs)
  else if strEndsWith raw ".py" || strEndsWith raw ".js" then
    .ok (ServerTarget.script
      (if strEndsWith raw ".py" then Interp.python else Interp.node) raw serverArgs)
  else
    .error "Provide a .js/.py path or use the form npx:@scope/pkg[@ver][#bin]"

example :
    parseServerSpec "npx:@scope/pkg@1.2.3#bin" [] =
      .ok (ServerTarget.npx "@scope/pkg" (some "1.2.3") (some "bin") []
        (some ["-y"])) := rfl

example :
    parseServerSpec "npx:@scope/pkg" [] =
      .ok (ServerTarget.npx "@scope/pkg" none none [] (some ["-y"])) := rfl

example :
    parseServerSpec "npx:pkg -p" [] =
      .ok (ServerTarget.npx "pkg" none none [] (some ["-y", "-p"])) := rfl

/-! ### Session data model -/

/-- A typed tool entry as cached in lastTools. -/
structure ToolInfo where
  name : String
  description : Option String
  inputSchema : Option JsonVal
deriving Repr

/-- An untyped tool entry as it arrives from the tools list response; the
schema may sit under any of three field spellings. -/
structure RawTool where
  name : String
  description : Option String
  inputSchema : Option JsonVal
  input_schema : Option JsonVal
  inputschema : Option JsonVal
deriving Repr

/-- JS nullish coalescing on an untyped field: an absent field and a JSON
null are both skipped. -/
def jsCoalesce (a b : Option JsonVal) : Option JsonVal :=
  match a with
  | none => b
  | some JsonVal.null => b
  | some v => some v

/-- The per-entry mapping applied to the tools list response in connect. -/
def coerceTool (t : RawTool) : ToolInfo :=
  { name := t.name
  , description := t.description
  , inputSchema := jsCoalesce t.inputSchema (jsCoalesce t.input_schema t.inputschema) }

/-- A typed resource entry as cached in the resources map. -/
structure ResourceInfo where
  uri : String
  name : String
  description : Option String
  mimeType : Option String
  annotations : Option JsonVal
deriving Repr

/-- The untyped shape read from a readResource response in the
single-resource update path: every field may be absent or hold any
runtime value. -/
structure ResourceData where
  name : Option JsonVal
  description : Option JsonVal
  mimeType : Option JsonVal
  annotations : Option JsonVal
deriving Repr

/-- Server capability flags observed by the session (truthiness of the
logging and resources fields). -/
structure ServerCapabilities where
  logging : Bool
  resources : Bool
deriving DecidableEq, Repr

/-- The two transport classes the session can construct. -/
inductive TransportKind where
  | stdio
  | streamableHttp
deriving DecidableEq, Repr

/-- A live transport handle; closed records that close() has been
called on it. -/
structure Transport where
  kind : TransportKind
  closed : Bool
deriving DecidableEq, Repr

/-- The mutable instance state of TestMcpClient.  client is true when the
client handle is non-null; the resources map is a JS object keyed by URI,
embedded as an insertion-ordered association list with unique keys. -/
structure SessionState where
  client : Bool
  transport : Option Transport
  serverCapabilities : Option ServerCapabilities
  lastTools : List ToolInfo
  resources : List (String × ResourceInfo)
  quiet : Bool
deriving Repr

/-- The field initializers of TestMcpClient: a freshly constructed
session. -/
def initialSession : SessionState :=
  { client := false
  , transport := none
  , serverCapabilities := none
  , lastTools := []
  , resources := []
  , quiet := false }

/-! ### Resource map operations (JS object semantics) -/

/-- Property read on the resources object. -/
def lookupRes (m : List (String × ResourceInfo)) (k : String) :
    Option ResourceInfo :=
  (m.find? (fun p => p.1 == k)).map (fun p => p.2)

/-- Property assignment on the resources object: overwrite in place when
the key exists, append otherwise. -/
def setKey (m : List (String × ResourceInfo)) (k : String)
    (v : ResourceInfo) : List (String × ResourceInfo) :=
  if m.any (fun p => p.1 == k) then
    m.map (fun p => if p.1 == k then (k, v) else p)
  else
    m ++ [(k, v)]

/-- The object literal built for each entry in the resources list reduce
(field-by-field copy). -/
def copyResource (r : ResourceInfo) : ResourceInfo :=
  { uri := r.uri
  , name := r.name
  , description := r.description
  , mimeType := r.mimeType
  , annotations := r.annotations }

/-- The reduce of updateResourcesList: rebuild the whole map keyed by URI
from the returned resource list. -/
def buildResourceMap (rs : List ResourceInfo) : List (String × ResourceInfo) :=
  rs.foldl (fun acc r => setKey acc r.uri (copyResource r)) []

/-! ### Session operations -/

/-- updateResourcesList: issue the resources list request; on success
replace the whole map, on failure log and keep the cache.  When the
client handle is null the optional-chained request yields undefined and
nothing changes.  The request outcome is passed explicitly. -/
def updateResourcesList (st : SessionState)
    (fetch : Except String (List ResourceInfo)) : SessionState :=
  if st.client then
    match fetch with
    | .ok rs => { st with resources := buildResourceMap rs }
    | .error _ => st
  else st

/-- The defensive coercion of the single-resource update path: the stored
entry takes name as the response string or the empty string, description
and mimeType as the response string or undefined, and annotations
verbatim. -/
def coerceResourceData (uri : String) (rd : ResourceData) : ResourceInfo :=
  { uri := uri
  , name := match rd.name with | some (JsonVal.str s) => s | _ => ""
  , description := match rd.description with
      | some (JsonVal.str s) => some s
      | _ => none
  , mimeType := match rd.mimeType with
      | some (JsonVal.str s) => some s
      | _ => none
  , annotations := rd.annotations }

/-- The ResourceUpdatedNotification handler registered in connect: read
the one resource named by the notification; on a truthy response upsert
exactly that entry, on failure log and skip.  The readResource outcome is
passed explicitly (ok none embeds a falsy response). -/
def handleResourceUpdated (st : SessionState) (uri : String)
    (fetch : Except String (Option ResourceData)) : SessionState :=
  if st.client then
    match fetch with
    | .ok (some rd) =>
        { st with resources := setKey st.resources uri (coerceResourceData uri rd) }
    | .ok none => st
    | .error _ => st
  else st

/-- getTools: snapshot copy of the last fetched tool list. -/
def getTools (st : SessionState) : List ToolInfo :=
  st.lastTools

/-- describeTool: linear lookup by name in the last fetched tool list. -/
def describeTool (st : SessionState) (name : String) : Option ToolInfo :=
  st.lastTools.find? (fun t => t.name == name)

/-- getResources: Object.values of the resources map. -/
def getResources (st : SessionState) : List ResourceInfo :=
  st.resources.map (fun p => p.2)

/-- getResource: keyed read of the resources map. -/
def getResource (st : SessionState) (uri : String) : Option ResourceInfo :=
  lookupRes st.resources uri

/-- Requests the session can issue through the RPC client. -/
inductive SentRequest where
  | setLevel (level : String)
  | callToolReq (name : String)
deriving DecidableEq, Repr

/-- The fixed eight-severity list LOG_LEVELS of TestMcpClient. -/
def LOG_LEVELS : List String :=
  ["debug", "info", "notice", "warning", "error", "critical", "alert", "emergency"]

/-- getLogLevels: snapshot copy of LOG_LEVELS. -/
def getLogLevels : List String :=
  LOG_LEVELS

/-- The external SDK LoggingLevelSchema.parse at the interface boundary:
it returns the level when it is one of the eight severities and throws
otherwise. -/
def loggingLevelParse (level : String) : Except String String :=
  if LOG_LEVELS.contains level then .ok level else .error "Invalid logging level"

/-- setLoggingLevel: the request object is built first, so the schema
parse runs (and can throw) before the request is issued; the
optional-chained call short-circuits everything when the client handle is
null.  Returns the call outcome and the list of requests issued. -/
def setLoggingLevel (st : SessionState) (level : String) :
    Except String Unit × List SentRequest :=
  if st.client then
    match loggingLevelParse level with
    | .ok l => (.ok (), [SentRequest.setLevel l])
    | .error e => (.error e, [])
  else (.ok (), [])

/-- ensureConnected: throw when the client handle is null. -/
def ensureConnected (st : SessionState) : Except String Unit :=
  if st.client then .ok () else .error "Client not connected"

/-- callTool: ensureConnected, then delegate the call to the RPC layer.
Returns the requests issued, or the not-connected error. -/
def callTool (st : SessionState) (name : String) :
    Except String (List SentRequest) :=
  match ensureConnected st with
  | .error e => .error e
  | .ok _ => .ok [SentRequest.callToolReq name]

/-- close() on a transport handle. -/
def closeTransport (t : Transport) : Transport :=
  { t with closed := true }

/-- disconnect: close the transport when one exists; nothing else is
touched. -/
def disconnect (st : SessionState) : SessionState :=
  { st with transport := st.transport.map closeTransport }

/-- The read-only snapshot returned by getHandshakeInfo (the constant
client identity and capability fields are omitted from the embedding). -/
structure HandshakeInfo where
  connected : Bool
  serverCapabilities : Option ServerCapabilities
  transportType : String
deriving Repr

/-- getHandshakeInfo: connected is the conjunction of a non-null client
handle and a non-null transport. -/
def getHandshakeInfo (st : SessionState) : HandshakeInfo :=
  { connected := st.client && st.transport.isSome
  , serverCapabilities := st.serverCapabilities
  , transportType := match st.transport with
      | some t => match t.kind with
          | TransportKind.stdio => "StdioClientTransport"
          | TransportKind.streamableHttp => "StreamableHTTPClientTransport"
      | none => "Unknown" }

/-- verifyHandshake: client handle, transport and captured server
capabilities must all be non-null. -/
def verifyHandshake (st : SessionState) : Bool :=
  st.client && st.transport.isSome && st.serverCapabilities.isSome

/-! ### connect -/

/-- Outcomes of the external calls made during connect: validity of the
URL passed to the http transport constructor, the handshake performed by
the SDK client, the capability retrieval, the LOG_LEVEL environment
variable, the initial resources list request and the tools list
request. -/
structure ConnectEnv where
  urlValid : Bool
  handshake : Except String Unit
  caps : Except String ServerCapabilities
  logLevelEnv : Option String
  resourcesList : Except String (List ResourceInfo)
  toolsList : Except String (List RawTool)

/-- The logging level used at connect: the LOG_LEVEL environment variable
unless absent or empty, in which case the info fallback. -/
def effectiveLogLevel (env : ConnectEnv) : String :=
  match env.logLevelEnv with
  | some s => if s = "" then "info" else s
  | none => "info"

/-- Step 1 of connect: construct the transport for the target variant.
Only the http branch can throw (the URL constructor); both other branches
build a stdio transport from spawn parameters. -/
def connectTransport (st : SessionState) (target : ServerTarget)
    (env : ConnectEnv) : Except String SessionState :=
  match target with
  | ServerTarget.http _ _ =>
      if env.urlValid then
        .ok { st with transport := some ⟨TransportKind.streamableHttp, false⟩ }
      else .error "Invalid URL"
  | ServerTarget.script _ _ _ =>
      .ok { st with transport := some ⟨TransportKind.stdio, false⟩ }
  | ServerTarget.npx _ _ _ _ _ =>
      .ok { st with transport := some ⟨TransportKind.stdio, false⟩ }

/-- connect: set quiet, construct the transport, create the client
handle, perform the handshake, capture capabilities, initialise logging
when advertised (the schema parse of the level can throw), load the
initial resources list when advertised (its failures are swallowed by
updateResourcesList), then fetch the tools list and store it.  Returns
the outcome together with the state left behind, which on failure keeps
every reference assigned so far. -/
def connect (st : SessionState) (target : ServerTarget) (quiet : Bool)
    (env : ConnectEnv) : Except String Unit × SessionState :=
  match connectTransport { st with quiet := quiet } target env with
  | .error e => (.error e, { st with quiet := quiet })
  | .ok st1 =>
    match env.handshake with
    | .error e => (.error e, { st1 with client := true })
    | .ok _ =>
      match env.caps with
      | .error e => (.error e, { st1 with client := true })
      | .ok caps =>
        match (if caps.logging then loggingLevelParse (effectiveLogLevel env)
               else .ok "") with
        | .error e =>
            (.error e,
              { st1 with client := true, serverCapabilities := some caps })
        | .ok _ =>
          match env.toolsList with
          | .error e =>
              (.error e,
                if caps.resources then
                  updateResourcesList
                    { st1 with client := true, serverCapabilities := some caps }
                    env.resourcesList
                else
                  { st1 with client := true, serverCapabilities := some caps })
          | .ok ts =>
              (.ok (),
                { (if caps.resources then
                      updateResourcesList
                        { st1 with
                            client := true, serverCapabilities := some caps }
                        env.resourcesList
                    else
                      { st1 with
                          client := true, serverCapabilities := some caps }) with
                    lastTools := ts.map coerceTool })

/-! ### Lemmas on the resource map -/

theorem copyResource_eq_self (r : ResourceInfo) : copyResource r = r := rfl

theorem lookupRes_cons (p : String × ResourceInfo)
    (m : List (String × ResourceInfo)) (k : String) :
    lookupRes (p :: m) k = if p.1 = k then some p.2 else lookupRes m k := by
  by_cases h : p.1 = k
  · simp [lookupRes, List.find?_cons, h]
  · simp [lookupRes, List.find?_cons, h]

theorem find?_append_eq {α : Type} (l₁ l₂ : List α) (p : α → Bool) :
    (l₁ ++ l₂).find? p =
      match l₁.find? p with
      | some x => some x
      | none => l₂.find? p := by
  induction l₁ with
  | nil => simp
  | cons a l ih =>
    by_cases h : p a <;> simp [List.find?_cons, h, ih]

theorem lookupRes_map_replace (m : List (String × ResourceInfo))
    (k k' : String) (v : ResourceInfo) (hne : k' ≠ k) :
    lookupRes (m.map (fun p => if p.1 == k then (k, v) else p)) k' =
      lookupRes m k' := by
  induction m with
  | nil => rfl
  | cons p m ih =>
    rw [List.map_cons]
    by_cases hp : p.1 = k
    · rw [if_pos (by simp [hp]), lookupRes_cons, lookupRes_cons]
      rw [if_neg (fun h => hne h.symm), if_neg (fun h => hne (hp ▸ h).symm)]
      exact ih
    · rw [if_neg (by simp [hp]), lookupRes_cons, lookupRes_cons]
      by_cases hk : p.1 = k'
      · simp [hk]
      · rw [if_neg hk, if_neg hk]
        exact ih

theorem lookupRes_map_replace_found (m : List (String × ResourceInfo))
    (k : String) (v : ResourceInfo)
    (hany : m.any (fun p => p.1 == k) = true) :
    lookupRes (m.map (fun p => if p.1 == k then (k, v) else p)) k = some v := by
  induction m with
  | nil => simp at hany
  | cons p m ih =>
    rw [List.map_cons]
    by_cases hp : p.1 = k
    · rw [if_pos (by simp [hp]), lookupRes_cons]
      simp
    · rw [if_neg (by simp [hp]), lookupRes_cons, if_neg hp]
      apply ih
      simp only [List.any_cons, Bool.or_eq_true] at hany
      rcases hany with h | h
      · exact absurd (by simpa using h) hp
      · exact h

theorem lookupRes_append_single (m : List (String × ResourceInfo))
    (k k' : String) (v : ResourceInfo) :
    lookupRes (m ++ [(k, v)]) k' =
      match lookupRes m k' with
      | some w => some w
      | none => if k' = k then some v else none := by
  unfold lookupRes
  rw [find?_append_eq]
  cases h : m.find? (fun p => p.1 == k') with
  | some q => simp
  | none =>
    by_cases hk : k' = k
    · subst hk
      simp [List.find?_cons]
    · have hb : (k == k') = false := by
        simp only [beq_eq_false_iff_ne]
        exact fun hh => hk hh.symm
      simp [List.find?_cons, hb, hk]

theorem lookupRes_setKey (m : List (String × ResourceInfo))
    (k k' : String) (v : ResourceInfo) :
    lookupRes (setKey m k v) k' = if k' = k then some v else lookupRes m k' := by
  unfold setKey
  by_cases hany : m.any (fun p => p.1 == k) = true
  · rw [if_pos hany]
    by_cases hk : k' = k
    · rw [if_pos hk, hk]
      exact lookupRes_map_replace_found m k v hany
    · rw [if_neg hk]
      exact lookupRes_map_replace m k k' v hk
  · rw [if_neg hany, lookupRes_append_single]
    by_cases hk : k' = k
    · rw [if_pos hk]
      have hnone : lookupRes m k' = none := by
        unfold lookupRes
        have : m.find? (fun p => p.1 == k') = none := by
          rw [List.find?_eq_none]
          intro p hp
          simp only [Bool.not_eq_true, beq_eq_false_iff_ne]
          intro hcontra
          apply hany
          rw [List.any_eq_true]
          exact ⟨p, hp, by simp [hcontra, hk]⟩
        rw [this]
        rfl
      rw [hnone]
      simp [hk]
    · rw [if_neg hk]
      cases h : lookupRes m k' with
      | some w => simp [hk]
      | none => simp [hk]

theorem lookupRes_foldl (rs : List ResourceInfo)
    (acc : List (String × ResourceInfo)) (uri : String) :
    lookupRes (rs.foldl (fun acc r => setKey acc r.uri (copyResource r)) acc) uri =
      match rs.reverse.find? (fun r => r.uri == uri) with
      | some r => some (copyResource r)
      | none => lookupRes acc uri := by
  induction rs generalizing acc with
  | nil => simp
  | cons r rs ih =>
    rw [List.foldl_cons, ih, List.reverse_cons, find?_append_eq]
    cases h : rs.reverse.find? (fun r => r.uri == uri) with
    | some x => simp
    | none =>
      rw [lookupRes_setKey]
      by_cases hu : uri = r.uri
      · have hb : (r.uri == uri) = true := by simp [hu]
        simp [List.find?_cons, hb, hu]
      · have hb : (r.uri == uri) = false := by
          simp only [beq_eq_false_iff_ne]
          exact fun hh => hu hh.symm
        simp [List.find?_cons, hb, hu]

/-- The resources map built by a successful relist, characterised
pointwise: a URI maps to the last entry of the returned list carrying it,
and to nothing when no entry carries it. -/
theorem lookupRes_buildResourceMap (rs : List ResourceInfo) (uri : String) :
    lookupRes (buildResourceMap rs) uri =
      rs.reverse.find? (fun r => r.uri == uri) := by
  unfold buildResourceMap
  rw [lookupRes_foldl]
  cases h : rs.reverse.find? (fun r => r.uri == uri) with
  | some x => simp [copyResource_eq_self]
  | none => simp [lookupRes]

/-! ### Concrete fixtures used by witnesses and counterexamples -/

def resA : ResourceInfo := ⟨"uri:a", "A", none, none, none⟩

def resB : ResourceInfo := ⟨"uri:b", "B", none, none, none⟩

def resC : ResourceInfo := ⟨"uri:c", "C", none, none, none⟩

/-- A session holding the two-entry cache of the spec examples. -/
def cacheAB : SessionState :=
  { initialSession with
      client := true
    , transport := some ⟨TransportKind.stdio, false⟩
    , serverCapabilities := some ⟨true, true⟩
    , resources := [("uri:a", resA), ("uri:b", resB)] }

/-- A session whose client handle exists. -/
def connectedSession : SessionState :=
  { initialSession with client := true }

/-- An environment in which every external call of connect succeeds. -/
def happyEnv : ConnectEnv :=
  { urlValid := true
  , handshake := .ok ()
  , caps := .ok ⟨true, true⟩
  , logLevelEnv := none
  , resourcesList := .ok [resA, resB]
  , toolsList := .ok [⟨"echo", some "Echo tool", some (JsonVal.obj []), none, none⟩] }

/-- An environment in which the handshake is rejected. -/
def handshakeFailEnv : ConnectEnv :=
  { happyEnv with handshake := .error "handshake failed" }

/-- The state left behind by a fully successful connect run. -/
def stReady : SessionState :=
  (connect initialSession (ServerTarget.script Interp.node "server.js" []) false
    happyEnv).2

/-! ### Claim theorems -/

/-- Claim C10: on a freshly constructed session the query surface is
total and empty — getTools and getResources return the empty list,
describeTool and getResource return absent for every name and uri, and
none of them throws, while callTool fails with the not-connected
error. -/
theorem fresh_session_query_surface :
    getTools initialSession = [] ∧
    getResources initialSession = [] ∧
    (∀ name : String, describeTool initialSession name = none) ∧
    (∀ uri : String, getResource initialSession uri = none) ∧
    (∀ name : String,
      callTool initialSession name = Except.error "Client not connected") :=
  ⟨rfl, rfl, fun _ => rfl, fun _ => rfl, fun _ => rfl⟩

/-- Claim C2: updateResourcesList replaces the whole cache with the
returned snapshot keyed by URI on success (a URI maps to the last
returned entry carrying it and to nothing otherwise, so stale entries
are dropped) and leaves the cache exactly as it was on failure. -/
theorem updateResourcesList_cache_policy (st : SessionState)
    (rs : List ResourceInfo) (e uri : String) :
    (st.client = true →
      lookupRes (updateResourcesList st (Except.ok rs)).resources uri =
        rs.reverse.find? (fun r => r.uri == uri)) ∧
    updateResourcesList st (Except.error e) = st := by
  constructor
  · intro hc
    unfold updateResourcesList
    rw [hc]
    simp [lookupRes_buildResourceMap]
  · unfold updateResourcesList
    cases hc : st.client <;> simp

/-- Witness for claim C2 at the cache of the spec example: after a
successful relist returning only entry c, entries a and b are gone and c
is present; a failed relist leaves the cache untouched. -/
theorem updateResourcesList_cache_policy_witness :
    lookupRes (updateResourcesList cacheAB (Except.ok [resC])).resources
      "uri:a" = none ∧
    lookupRes (updateResourcesList cacheAB (Except.ok [resC])).resources
      "uri:c" = some resC ∧
    updateResourcesList cacheAB (Except.error "relist failed") = cacheAB := by
  refine ⟨?_, ?_, ?_⟩
  · rw [(updateResourcesList_cache_policy cacheAB [resC] "x" "uri:a").1 rfl]
    rfl
  · rw [(updateResourcesList_cache_policy cacheAB [resC] "x" "uri:c").1 rfl]
    rfl
  · exact (updateResourcesList_cache_policy cacheAB [] "relist failed" "u").2

/-- Claim C6: the resource-updated handler for URI c touches at most the
entry keyed by c — every other cache entry reads the same afterwards —
and on a failed or falsy fetch the state is entirely unchanged. -/
theorem resourceUpdated_frame (st : SessionState) (c uri e : String)
    (fetch : Except String (Option ResourceData)) :
    (uri ≠ c →
      lookupRes (handleResourceUpdated st c fetch).resources uri =
        lookupRes st.resources uri) ∧
    handleResourceUpdated st c (Except.error e) = st ∧
    handleResourceUpdated st c (Except.ok none) = st := by
  refine ⟨?_, ?_, ?_⟩
  · intro hne
    unfold handleResourceUpdated
    cases hc : st.client
    · simp
    · cases fetch with
      | error e2 => simp
      | ok o =>
        cases o with
        | none => simp
        | some rd => simp [lookupRes_setKey, hne]
  · unfold handleResourceUpdated
    cases hc : st.client <;> simp
  · unfold handleResourceUpdated
    cases hc : st.client <;> simp

/-- Witness for claim C6: updating entry c in the two-entry cache leaves
entry a untouched, and a failed fetch leaves the whole session as it
was. -/
theorem resourceUpdated_frame_witness :
    lookupRes (handleResourceUpdated cacheAB "uri:c"
        (Except.ok (some ⟨some (JsonVal.str "C"), none, none, none⟩))).resources
      "uri:a" = some resA ∧
    handleResourceUpdated cacheAB "uri:c" (Except.error "read failed") =
      cacheAB := by
  constructor
  · rw [(resourceUpdated_frame cacheAB "uri:c" "uri:a" "x"
      (Except.ok (some ⟨some (JsonVal.str "C"), none, none, none⟩))).1 (by decide)]
    rfl
  · exact (resourceUpdated_frame cacheAB "uri:c" "uri:a" "read failed"
      (Except.ok none)).2.1

/-- Claim C4: in the package-and-version split, the last at sign is a
version separator exactly when its index is positive and the preceding
character is not a slash, so scoped names survive; including the two
resolver examples of the spec. -/
theorem splitPkgVersion_scoped :
    (∀ (s : String) (i : Nat), lastIndexOfChar s.toList '@' = some i →
        (i = 0 ∨ s.toList[i - 1]? = some '/') →
        splitPkgVersion s = (s, none)) ∧
    (∀ (s : String) (i : Nat), lastIndexOfChar s.toList '@' = some i →
        0 < i → s.toList[i - 1]? ≠ some '/' →
        splitPkgVersion s =
          (String.mk (s.toList.take i),
            some (String.mk (s.toList.drop (i + 1))))) ∧
    (∀ s : String, lastIndexOfChar s.toList '@' = none →
        splitPkgVersion s = (s, none)) ∧
    parseServerSpec "npx:@scope/pkg@1.2.3#bin" [] =
      Except.ok (ServerTarget.npx "@scope/pkg" (some "1.2.3") (some "bin") []
        (some ["-y"])) ∧
    parseServerSpec "npx:@scope/pkg" [] =
      Except.ok (ServerTarget.npx "@scope/pkg" none none [] (some ["-y"])) := by
  refine ⟨?_, ?_, ?_, rfl, rfl⟩
  · intro s i hlast hguard
    unfold splitPkgVersion
    simp only [hlast]
    rcases hguard with h0 | hs
    · subst h0
      simp
    · rw [if_neg (fun hc => hc.2 hs)]
  · intro s i hlast hpos hslash
    unfold splitPkgVersion
    simp only [hlast]
    rw [if_pos ⟨hpos, hslash⟩]
  · intro s hlast
    unfold splitPkgVersion
    simp only [hlast]

/-- Witness for claim C4: the guard applied to a scoped name with no
version (last at sign at index zero) and to a scoped name with a
version. -/
theorem splitPkgVersion_scoped_witness :
    splitPkgVersion "@scope/pkg" = ("@scope/pkg", none) ∧
    splitPkgVersion "@scope/pkg@1.2.3" = ("@scope/pkg", some "1.2.3") := by
  constructor
  · exact splitPkgVersion_scoped.1 "@scope/pkg" 0 rfl (Or.inl rfl)
  · exact splitPkgVersion_scoped.2.1 "@scope/pkg@1.2.3" 10 rfl
      (by decide) (by decide)

/-- Runner-flag list of a resolved target. -/
def npxArgsOf : ServerTarget → List String
  | ServerTarget.npx _ _ _ _ nargs => nargs.getD []
  | _ => []

/-- Claim C5: the extra arguments of an npx spec are partitioned into
known runner flags versus server args, the resolved runner-flag list
always contains the assume-yes flag (injected when absent), and the
package-selector example of the spec resolves with both flags. -/
theorem npx_assume_yes_flag :
    (∀ args : List String,
        (partitionNpxArgs args).1 = args.filter (fun a => isNpxFlag a) ∧
        (partitionNpxArgs args).2 = args.filter (fun a => !(isNpxFlag a))) ∧
    (∀ (spec : String) (serverArgs : List String),
        "-y" ∈ npxArgsOf (parseNpx spec serverArgs)) ∧
    parseServerSpec "npx:pkg -p" [] =
      Except.ok (ServerTarget.npx "pkg" none none [] (some ["-y", "-p"])) := by
  refine ⟨?_, ?_, rfl⟩
  · intro args
    induction args with
    | nil => exact ⟨rfl, rfl⟩
    | cons a rest ih =>
      by_cases h : isNpxFlag a = true
      · simp [partitionNpxArgs, List.filter, h, ih.1, ih.2]
      · rw [Bool.not_eq_true] at h
        simp [partitionNpxArgs, List.filter, h, ih.1, ih.2]
  · intro spec serverArgs
    unfold parseNpx npxArgsOf
    by_cases h :
        ((partitionNpxArgs (strSplitOnChar ' ' spec).tail).1).contains "-y" = true
    · simp only [h, if_true]
      exact List.mem_of_elem_eq_true h
    · rw [Bool.not_eq_true] at h
      simp only [h, Bool.false_eq_true, if_false]
      exact List.mem_cons_self "-y" _

/-- Claim C3 counterexample: after disconnect on a fully connected
session the cached tool list and resource map survive, the client handle
stays set, and callTool still issues a request instead of failing fast
with the not-connected error. -/
theorem disconnect_keeps_state_counterexample :
    (disconnect stReady).lastTools =
      [⟨"echo", some "Echo tool", some (JsonVal.obj [])⟩] ∧
    (disconnect stReady).resources = [("uri:a", resA), ("uri:b", resB)] ∧
    (disconnect stReady).client = true ∧
    callTool (disconnect stReady) "echo" =
      Except.ok [SentRequest.callToolReq "echo"] :=
  ⟨rfl, rfl, rfl, rfl⟩

/-- Claim C3 (amended): disconnect closes the transport when one exists
but clears no cached state and nulls no handle, so the behaviour of
callTool is unchanged by disconnect; only a session never connected
fails fast with the not-connected error. -/
theorem disconnect_behavior (st : SessionState) (n : String) :
    (disconnect st).lastTools = st.lastTools ∧
    (disconnect st).resources = st.resources ∧
    (disconnect st).client = st.client ∧
    (disconnect st).serverCapabilities = st.serverCapabilities ∧
    (disconnect st).transport.map Transport.closed =
      st.transport.map (fun _ => true) ∧
    callTool (disconnect st) n = callTool st n ∧
    callTool initialSession n = Except.error "Client not connected" := by
  refine ⟨rfl, rfl, rfl, rfl, ?_, rfl, rfl⟩
  rcases st with ⟨c, tr, caps, lt, rs, q⟩
  cases tr <;> rfl

/-- The drop-not-default reading of claim C7 for one optional field of
the untyped response: the stored value is the response string when the
response holds a string, and absent otherwise. -/
def fieldKeptIffString (stored : Option String) (raw : Option JsonVal) : Prop :=
  match raw with
  | some (JsonVal.str s) => stored = some s
  | _ => stored = none

/-- Claim C7 as stated: every field of the upserted entry is defensively
coerced — description, mimeType and annotations are dropped when not of
the expected shape, and the stored name is never a fabricated default
(an empty stored name can only come from an empty response string). -/
def claimDefensiveCoercion : Prop :=
  ∀ (uri : String) (rd : ResourceData),
    fieldKeptIffString (coerceResourceData uri rd).description rd.description ∧
    fieldKeptIffString (coerceResourceData uri rd).mimeType rd.mimeType ∧
    (match rd.annotations with
     | some (JsonVal.obj kvs) =>
        (coerceResourceData uri rd).annotations = some (JsonVal.obj kvs)
     | _ => (coerceResourceData uri rd).annotations = none) ∧
    ((coerceResourceData uri rd).name = "" → rd.name = some (JsonVal.str ""))

/-- Claim C7 counterexample: a response with no name field and a numeric
annotations field is stored with a fabricated empty name, and the
non-record annotations value is kept verbatim instead of dropped. -/
theorem defensive_coercion_counterexample :
    ¬ claimDefensiveCoercion ∧
    (coerceResourceData "uri:x" ⟨none, none, none, some (JsonVal.num 3)⟩).name
      = "" ∧
    (coerceResourceData "uri:x"
        ⟨none, none, none, some (JsonVal.num 3)⟩).annotations =
      some (JsonVal.num 3) := by
  refine ⟨?_, rfl, rfl⟩
  intro h
  exact Option.noConfusion
    ((h "uri:x" ⟨none, none, none, some (JsonVal.num 3)⟩).2.2.1)

/-- Claim C7 (amended): description and mimeType are dropped unless the
response value is a string; the stored name falls back to the empty
string when the response value is not a string; annotations is copied
through with no shape check; the stored key is the notification uri. -/
theorem coerceResourceData_fields (uri : String) (rd : ResourceData) :
    fieldKeptIffString (coerceResourceData uri rd).description
      rd.description ∧
    fieldKeptIffString (coerceResourceData uri rd).mimeType rd.mimeType ∧
    (coerceResourceData uri rd).annotations = rd.annotations ∧
    (coerceResourceData uri rd).name =
      (match rd.name with | some (JsonVal.str s) => s | _ => "") ∧
    (coerceResourceData uri rd).uri = uri := by
  rcases rd with ⟨n, d, m, a⟩
  refine ⟨?_, ?_, rfl, rfl, rfl⟩
  · cases d with
    | none => rfl
    | some v => cases v <;> rfl
  · cases m with
    | none => rfl
    | some v => cases v <;> rfl

/-- Claim C9: a level outside the eight-severity set is rejected by the
schema parse while the request object is being built, so nothing is sent
and the call fails when a client handle exists; and a set-level request
is only ever issued carrying a level from the set. -/
theorem contains_false_not_mem {l : List String} {a : String}
    (h : l.contains a = false) : ¬ a ∈ l := by
  intro hm
  have h2 : l.elem a = true := List.elem_iff.mpr hm
  have h3 : l.elem a = false := h
  rw [h2] at h3
  exact Bool.noConfusion h3

theorem setLoggingLevel_local_validation (st : SessionState) (level : String) :
    (LOG_LEVELS.contains level = false →
        (setLoggingLevel st level).2 = [] ∧
        (st.client = true →
          (setLoggingLevel st level).1 =
            Except.error "Invalid logging level")) ∧
    ((setLoggingLevel st level).2 ≠ [] →
        LOG_LEVELS.contains level = true ∧
        (setLoggingLevel st level).2 = [SentRequest.setLevel level]) := by
  constructor
  · intro hinv
    have hmem := contains_false_not_mem hinv
    constructor
    · cases hc : st.client <;>
        simp [setLoggingLevel, loggingLevelParse, hc, hmem]
    · intro hc
      simp [setLoggingLevel, loggingLevelParse, hc, hmem]
  · intro hne
    cases hc : st.client with
    | false => exact absurd (by simp [setLoggingLevel, hc]) hne
    | true =>
      by_cases hl : LOG_LEVELS.contains level = true
      · have hmem := List.mem_of_elem_eq_true hl
        exact ⟨hl, by simp [setLoggingLevel, loggingLevelParse, hc, hmem]⟩
      · rw [Bool.not_eq_true] at hl
        have hmem := contains_false_not_mem hl
        exact absurd
          (by simp [setLoggingLevel, loggingLevelParse, hc, hmem]) hne

/-- Witness for claim C9: the bogus level of the spec example on a
session with a client handle issues no request and fails locally. -/
theorem setLoggingLevel_local_validation_witness :
    (setLoggingLevel connectedSession "bogus").2 = [] ∧
    (setLoggingLevel connectedSession "bogus").1 =
      Except.error "Invalid logging level" := by
  refine ⟨((setLoggingLevel_local_validation connectedSession "bogus").1
    rfl).1, ?_⟩
  exact ((setLoggingLevel_local_validation connectedSession "bogus").1
    rfl).2 rfl

/-! ### Lemmas on connect -/

theorem updateResourcesList_client (st : SessionState)
    (f : Except String (List ResourceInfo)) :
    (updateResourcesList st f).client = st.client := by
  unfold updateResourcesList
  cases hc : st.client <;> cases f <;> simp [hc]

theorem updateResourcesList_transport (st : SessionState)
    (f : Except String (List ResourceInfo)) :
    (updateResourcesList st f).transport = st.transport := by
  unfold updateResourcesList
  cases hc : st.client <;> cases f <;> simp [hc]

theorem updateResourcesList_serverCapabilities (st : SessionState)
    (f : Except String (List ResourceInfo)) :
    (updateResourcesList st f).serverCapabilities = st.serverCapabilities := by
  unfold updateResourcesList
  cases hc : st.client <;> cases f <;> simp [hc]

theorem connectTransport_ok_shape (st : SessionState) (target : ServerTarget)
    (env : ConnectEnv) (st1 : SessionState)
    (h : connectTransport st target env = Except.ok st1) :
    st1.transport.isSome = true ∧ st1.client = st.client ∧
      st1.serverCapabilities = st.serverCapabilities := by
  unfold connectTransport at h
  cases target with
  | script i p a =>
    rw [Except.ok.injEq] at h
    subst h
    exact ⟨rfl, rfl, rfl⟩
  | npx p v b a na =>
    rw [Except.ok.injEq] at h
    subst h
    exact ⟨rfl, rfl, rfl⟩
  | http u hd =>
    cases hu : env.urlValid with
    | false =>
      rw [hu] at h
      simp at h
    | true =>
      rw [hu] at h
      simp only [if_true] at h
      rw [Except.ok.injEq] at h
      subst h
      exact ⟨rfl, rfl, rfl⟩

/-- Whether a target is the http variant. -/
def isHttpTarget : ServerTarget → Bool
  | ServerTarget.http _ _ => true
  | _ => false

theorem connect_state_shape (target : ServerTarget) (quiet : Bool)
    (env : ConnectEnv) :
    ((connect initialSession target quiet env).2.client =
        !(isHttpTarget target && !env.urlValid)) ∧
    ((connect initialSession target quiet env).2.transport.isSome =
        !(isHttpTarget target && !env.urlValid)) ∧
    (∀ u : Unit, (connect initialSession target quiet env).1 = Except.ok u →
        (isHttpTarget target && !env.urlValid) = false ∧
        (connect initialSession target quiet env).2.serverCapabilities.isSome
          = true) := by
  unfold connect
  cases htr : connectTransport { initialSession with quiet := quiet } target env with
  | error e =>
    have hb : isHttpTarget target = true ∧ env.urlValid = false := by
      unfold connectTransport at htr
      cases target with
      | script i p a => exact Except.noConfusion htr
      | npx p v b a na => exact Except.noConfusion htr
      | http u hd =>
        cases hu : env.urlValid with
        | false => exact ⟨rfl, rfl⟩
        | true =>
          rw [hu] at htr
          simp at htr
    rw [hb.1, hb.2]
    refine ⟨rfl, rfl, ?_⟩
    intro u hu
    exact Except.noConfusion hu
  | ok st1 =>
    have hshape := connectTransport_ok_shape _ target env st1 htr
    have hb : (isHttpTarget target && !env.urlValid) = false := by
      unfold connectTransport at htr
      cases target with
      | script i p a => simp [isHttpTarget]
      | npx p v b a na => simp [isHttpTarget]
      | http u hd =>
        cases hu : env.urlValid with
        | false =>
          rw [hu] at htr
          simp at htr
        | true => simp [isHttpTarget, hu]
    rw [hb]
    cases hhs : env.handshake with
    | error e =>
      refine ⟨by simp, by simp [hshape.1], ?_⟩
      intro u hu
      exact Except.noConfusion hu
    | ok uu =>
      cases hcp : env.caps with
      | error e =>
        refine ⟨by simp, by simp [hshape.1], ?_⟩
        intro u hu
        exact Except.noConfusion hu
      | ok caps =>
        cases hll : (if caps.logging then
            loggingLevelParse (effectiveLogLevel env) else Except.ok "") with
        | error e =>
          refine ⟨by simp [hll], by simp [hll, hshape.1], ?_⟩
          intro u hu
          simp [hll] at hu
        | ok s =>
          cases htl : env.toolsList with
          | error e =>
            cases hres : caps.resources <;>
              refine ⟨by simp [hll, htl, hres, updateResourcesList_client],
                by simp [hll, htl, hres, updateResourcesList_transport,
                  hshape.1], ?_⟩ <;>
              · intro u hu
                simp [hll, htl] at hu
          | ok ts =>
            cases hres : caps.resources <;>
              exact ⟨by simp [hll, htl, hres, updateResourcesList_client],
                by simp [hll, htl, hres, updateResourcesList_transport,
                  hshape.1],
                fun u hu => ⟨rfl, by
                  simp [hll, htl, hres,
                    updateResourcesList_serverCapabilities]⟩⟩

theorem connect_handshake_error_caps (target : ServerTarget) (quiet : Bool)
    (env : ConnectEnv) (e : String) (h : env.handshake = Except.error e) :
    (connect initialSession target quiet env).2.serverCapabilities = none := by
  unfold connect
  cases htr : connectTransport { initialSession with quiet := quiet } target env with
  | error e2 => rfl
  | ok st1 =>
    rw [h]
    have hcaps := (connectTransport_ok_shape _ target env st1 htr).2.2
    simp [hcaps, initialSession]

/-- Claim C1 counterexample: on a script target, connect with a failing
handshake throws after the transport and client references were
assigned, and getHandshakeInfo afterwards reports connected as true, not
false. -/
theorem connect_midway_failure_leaves_references_set :
    (connect initialSession (ServerTarget.script Interp.node "server.js" [])
        false handshakeFailEnv).1 = Except.error "handshake failed" ∧
    (getHandshakeInfo (connect initialSession
        (ServerTarget.script Interp.node "server.js" []) false
        handshakeFailEnv).2).connected = true :=
  ⟨rfl, rfl⟩

/-- Claim C1 (amended): on a fresh session, the references are left null
with connected false exactly when connect throws during transport
construction (the http branch with an invalid URL); an exception at any
later point (handshake, capability retrieval, logging initialisation or
tool fetch) leaves both the transport and client references assigned, so
connected reads true. -/
theorem connect_failure_reference_state (target : ServerTarget)
    (quiet : Bool) (env : ConnectEnv) :
    (getHandshakeInfo (connect initialSession target quiet env).2).connected =
      !(isHttpTarget target && !env.urlValid) ∧
    (connect initialSession target quiet env).2.client =
      !(isHttpTarget target && !env.urlValid) ∧
    (connect initialSession target quiet env).2.transport.isNone =
      (isHttpTarget target && !env.urlValid) := by
  have hs := connect_state_shape target quiet env
  refine ⟨?_, hs.1, ?_⟩
  · show ((connect initialSession target quiet env).2.client &&
        (connect initialSession target quiet env).2.transport.isSome) = _
    rw [hs.1, hs.2.1]
    cases (isHttpTarget target && !env.urlValid) <;> rfl
  · have h4 := hs.2.1
    cases hx : (connect initialSession target quiet env).2.transport with
    | none =>
      rw [hx] at h4
      simp only [Option.isSome_none] at h4
      have hb : (isHttpTarget target && !env.urlValid) = true := by
        cases hbv : (isHttpTarget target && !env.urlValid) with
        | true => rfl
        | false =>
          rw [hbv] at h4
          exact absurd h4 (by decide)
      rw [hb]
      rfl
    | some t =>
      rw [hx] at h4
      simp only [Option.isSome_some] at h4
      have hb : (isHttpTarget target && !env.urlValid) = false := by
        cases hbv : (isHttpTarget target && !env.urlValid) with
        | false => rfl
        | true =>
          rw [hbv] at h4
          exact absurd h4 (by decide)
      rw [hb]
      rfl

/-- Claim C8: verifyHandshake is true exactly when the client handle,
the transport and a captured server-capabilities object all exist; it is
false whenever the handshake step fails (capabilities were never
captured) and true whenever connect returns successfully. -/
theorem verifyHandshake_characterisation :
    (∀ st : SessionState,
        verifyHandshake st = true ↔
          st.client = true ∧ st.transport.isSome = true ∧
            st.serverCapabilities.isSome = true) ∧
    (∀ (target : ServerTarget) (quiet : Bool) (env : ConnectEnv) (e : String),
        env.handshake = Except.error e →
        verifyHandshake (connect initialSession target quiet env).2 = false) ∧
    (∀ (target : ServerTarget) (quiet : Bool) (env : ConnectEnv) (u : Unit),
        (connect initialSession target quiet env).1 = Except.ok u →
        verifyHandshake (connect initialSession target quiet env).2 = true) := by
  refine ⟨?_, ?_, ?_⟩
  · intro st
    unfold verifyHandshake
    simp [Bool.and_eq_true, and_assoc]
  · intro target quiet env e h
    unfold verifyHandshake
    rw [connect_handshake_error_caps target quiet env e h]
    simp
  · intro target quiet env u h
    have hs := connect_state_shape target quiet env
    obtain ⟨hb, hcaps⟩ := hs.2.2 u h
    unfold verifyHandshake
    rw [hs.1, hs.2.1, hb, hcaps]
    rfl

/-- Witness for claim C8: a failing handshake leaves verifyHandshake
false; a fully successful connect leaves it true. -/
theorem verifyHandshake_characterisation_witness :
    verifyHandshake (connect initialSession
      (ServerTarget.script Interp.node "server.js" []) false
      handshakeFailEnv).2 = false ∧
    verifyHandshake (connect initialSession
      (ServerTarget.script Interp.node "server.js" []) false happyEnv).2
      = true := by
  constructor
  · exact verifyHandshake_characterisation.2.1
      (ServerTarget.script Interp.node "server.js" []) false handshakeFailEnv
      "handshake failed" rfl
  · exact verifyHandshake_characterisation.2.2
      (ServerTarget.script Interp.node "server.js" []) false happyEnv () rfl

end Microscope
